import Mathlib

/-!
Barnes-Hut: the atomic type selector `src/atomic.h`

The header is a preprocessor branch over one macro, `_NVHPC_STDPAR_GPU`.
Each branch holds one `#include` and six declarations: two alias templates
(`atomic`, `atomic_ref`) and four `inline constexpr auto` ordering constants.

The embedding keeps the header's lines as data (an include or a declaration,
written token for token as in the source) and turns the directives into
functions of the build configuration:

* `#if defined(M) A #else B #endif` becomes `if defined cfg M then A else B`
  (`activeGroup`);
* `#include <h>` becomes a step that fails when `h` is not found
  (`processLine`);
* `#pragma once` becomes a guard on the set of files already seen
  (`atomic_h`).

`binding` and `resolve` take the declaration lines as written. Macro
replacement of their tokens is a separate layer: `Decl.tokens` gives the
tokens of a line, `expandTokens` replaces those that the configuration
defines as object-like macros, and `expandedBinding` is what a name is bound
to afterwards.
-/

namespace AtomicH

/-! ## Build configuration -/

/-- A build configuration at the point where the header is read: the macros
that are defined, each with its replacement text, and the headers that an
angle-bracket include can find. -/
structure BuildConfig where
  macros : List (String × String)
  headers : List String
deriving Repr

/-- The preprocessor operator `defined(m)`: true when `m` has a definition,
whatever its replacement text. -/
def defined (cfg : BuildConfig) (m : String) : Bool :=
  (cfg.macros.lookup m).isSome

/-! ## Declarations of the header -/

/-- A template argument as written in the header: the template parameter
(`T`) or a qualified name (`cuda::thread_scope_system`). -/
inductive TArg where
  | param (name : String)
  | qual (ns id : String)
deriving DecidableEq, Repr

/-- A template-id `ns::id<args>`, such as `std::atomic<T>`. -/
structure TemplateId where
  ns : String
  id : String
  args : List TArg
deriving DecidableEq, Repr

/-- A qualified name `ns::id`, such as `std::memory_order_relaxed`. -/
structure QualId where
  ns : String
  id : String
deriving DecidableEq, Repr

/-- The two forms of declaration in the header:
`template <typename P...> using name = target;` and
`inline constexpr auto name = init;`. -/
inductive Decl where
  | aliasTemplate (params : List String) (name : String) (target : TemplateId)
  | constexprAuto (name : String) (init : QualId)
deriving DecidableEq, Repr

/-- A line of a conditional group: an include directive or a declaration. -/
inductive Line where
  | include (header : String)
  | decl (d : Decl)
deriving DecidableEq, Repr

/-- The macro tested by the header. -/
def flag : String := "_NVHPC_STDPAR_GPU"

/-- Lines 4 to 12 of `atomic.h`: the group under `#if defined(_NVHPC_STDPAR_GPU)`. -/
def gpuGroup : List Line :=
  [ .include "cuda/atomic",
    .decl (.aliasTemplate ["T"] "atomic"
      ⟨"cuda", "atomic", [.param "T", .qual "cuda" "thread_scope_system"]⟩),
    .decl (.aliasTemplate ["T"] "atomic_ref"
      ⟨"cuda", "atomic_ref", [.param "T", .qual "cuda" "thread_scope_system"]⟩),
    .decl (.constexprAuto "memory_order_relaxed" ⟨"cuda", "memory_order_relaxed"⟩),
    .decl (.constexprAuto "memory_order_acquire" ⟨"cuda", "memory_order_acquire"⟩),
    .decl (.constexprAuto "memory_order_release" ⟨"cuda", "memory_order_release"⟩),
    .decl (.constexprAuto "memory_order_acq_rel" ⟨"cuda", "memory_order_acq_rel"⟩) ]

/-- Lines 14 to 22 of `atomic.h`: the group under `#else`. -/
def hostGroup : List Line :=
  [ .include "atomic",
    .decl (.aliasTemplate ["T"] "atomic" ⟨"std", "atomic", [.param "T"]⟩),
    .decl (.aliasTemplate ["T"] "atomic_ref" ⟨"std", "atomic_ref", [.param "T"]⟩),
    .decl (.constexprAuto "memory_order_relaxed" ⟨"std", "memory_order_relaxed"⟩),
    .decl (.constexprAuto "memory_order_acquire" ⟨"std", "memory_order_acquire"⟩),
    .decl (.constexprAuto "memory_order_release" ⟨"std", "memory_order_release"⟩),
    .decl (.constexprAuto "memory_order_acq_rel" ⟨"std", "memory_order_acq_rel"⟩) ]

/-- Lines 3, 13 and 23 of `atomic.h`: the `#if defined(...)`, `#else`, `#endif`
selection of one group. -/
def activeGroup (cfg : BuildConfig) : List Line :=
  if defined cfg flag then gpuGroup else hostGroup

/-! ## Reading the header into a translation unit -/

/-- What a translation unit has accumulated: the files marked `#pragma once`
that were already read, the headers included, and the declarations seen, in
order. -/
structure TU where
  once : List String
  included : List String
  decls : List Decl
deriving DecidableEq, Repr

/-- The translation unit before anything is read. -/
def TU.empty : TU := ⟨[], [], []⟩

/-- The one way reading the header fails: an include that is not found. -/
inductive BuildError where
  | headerNotFound (header : String)
deriving DecidableEq, Repr

/-- One line of the active group: an include must be found among the
configuration's headers, a declaration is appended. -/
def processLine (cfg : BuildConfig) (tu : TU) : Line → Except BuildError TU
  | .include h =>
    if h ∈ cfg.headers then .ok { tu with included := tu.included ++ [h] }
    else .error (.headerNotFound h)
  | .decl d => .ok { tu with decls := tu.decls ++ [d] }

/-- The lines of a group in order, stopping at the first error. -/
def processLines (cfg : BuildConfig) : TU → List Line → Except BuildError TU
  | tu, [] => .ok tu
  | tu, l :: ls =>
    match processLine cfg tu l with
    | .ok tu' => processLines cfg tu' ls
    | .error e => .error e

/-- The path under which the header is recorded by `#pragma once`. -/
def path : String := "src/atomic.h"

/-- The whole header: `#pragma once` (line 1), then the active group. -/
def atomic_h (cfg : BuildConfig) (tu : TU) : Except BuildError TU :=
  if path ∈ tu.once then .ok tu
  else processLines cfg { tu with once := tu.once ++ [path] } (activeGroup cfg)

/-- A translation unit that reads only this header. -/
def resolve (cfg : BuildConfig) : Except BuildError TU :=
  atomic_h cfg TU.empty

/-! ## Observations on groups and declarations -/

/-- The declarations of a group, in order. -/
def declsOf : List Line → List Decl
  | [] => []
  | .decl d :: ls => d :: declsOf ls
  | .include _ :: ls => declsOf ls

/-- The headers a group includes, in order. -/
def includesOf : List Line → List String
  | [] => []
  | .include h :: ls => h :: includesOf ls
  | .decl _ :: ls => includesOf ls

/-- The name a declaration introduces. -/
def Decl.name : Decl → String
  | .aliasTemplate _ n _ => n
  | .constexprAuto n _ => n

/-- The namespace of the entity a declaration refers to. -/
def Decl.targetNs : Decl → String
  | .aliasTemplate _ _ t => t.ns
  | .constexprAuto _ i => i.ns

/-- The identifier, inside its namespace, of the entity a declaration refers to. -/
def Decl.targetId : Decl → String
  | .aliasTemplate _ _ t => t.id
  | .constexprAuto _ i => i.id

/-- The template arguments other than the template's own parameters: for
the cuda templates, the thread scope. -/
def Decl.scopeArgs : Decl → List TArg
  | .aliasTemplate ps _ t => t.args.filter (fun a =>
      match a with
      | .param p => !(ps.contains p)
      | .qual _ _ => true)
  | .constexprAuto _ _ => []

/-- Unqualified lookup of a name among declarations: the first that introduces it. -/
def lookupDecl (ds : List Decl) (n : String) : Option Decl :=
  ds.find? (fun d => d.name == n)

/-- What a name is bound to by the group the configuration selects. -/
def binding (cfg : BuildConfig) (n : String) : Option Decl :=
  lookupDecl (declsOf (activeGroup cfg)) n

/-- The six names a consumer writes. -/
def exportedNames : List String :=
  ["atomic", "atomic_ref", "memory_order_relaxed", "memory_order_acquire",
   "memory_order_release", "memory_order_acq_rel"]

/-- The four ordering constants among them. -/
def orderNames : List String :=
  ["memory_order_relaxed", "memory_order_acquire", "memory_order_release",
   "memory_order_acq_rel"]

/-- The system-wide thread scope of the cuda backend. -/
def systemScope : TArg := .qual "cuda" "thread_scope_system"

/-- The two backends a name can come from. -/
inductive Backend where
  | cuda
  | std
deriving DecidableEq, Repr

/-- The namespace of a backend. -/
def Backend.ns : Backend → String
  | .cuda => "cuda"
  | .std => "std"

/-- The header that provides a backend. -/
def Backend.header : Backend → String
  | .cuda => "cuda/atomic"
  | .std => "atomic"

/-- Whether a template argument names something of the given namespace. -/
def TArg.inNs (ns : String) : TArg → Bool
  | .param _ => false
  | .qual ns' _ => ns' == ns

/-- Whether a declaration mentions the given namespace, as the namespace of
its target or in a template argument. -/
def Decl.mentionsNs (ns : String) : Decl → Bool
  | .aliasTemplate _ _ t => t.ns == ns || t.args.any (TArg.inNs ns)
  | .constexprAuto _ i => i.ns == ns

/-- Whether a declaration is bound to the given backend: its target lives in
the backend's namespace and it mentions no other backend. -/
def Decl.fromBackend (d : Decl) (b : Backend) : Bool :=
  d.targetNs == b.ns &&
    match b with
    | .cuda => !(d.mentionsNs "std")
    | .std => !(d.mentionsNs "cuda")

/-- What a consumer sees of a declaration besides its target: a type template
with its parameter list, or a constant. -/
inductive Kind where
  | typeTemplate (params : List String)
  | constant
deriving DecidableEq, Repr

/-- The kind of a declaration. -/
def Decl.kind : Decl → Kind
  | .aliasTemplate ps _ _ => .typeTemplate ps
  | .constexprAuto _ _ => .constant

/-- The names declarations export, each with its kind, in order. -/
def exports (ds : List Decl) : List (String × Kind) :=
  ds.map (fun d => (d.name, d.kind))

/-- Whether declarations bind every one of the six names, and nothing else,
to the given backend. -/
def allFrom (ds : List Decl) (b : Backend) : Bool :=
  exportedNames.all (fun n =>
    match lookupDecl ds n with
    | some d => d.fromBackend b
    | none => false) &&
  ds.all (fun d => d.fromBackend b && exportedNames.contains d.name)

/-! ## Macro replacement in declaration lines -/

/-- The characters of an identifier. -/
def isIdentChar (c : Char) : Bool :=
  c.isAlphanum || c == '_'

/-- Whether a token is an identifier (keywords included): identifier
characters only, the first not a digit. -/
def isIdent (t : String) : Bool :=
  match t.toList with
  | [] => false
  | c :: cs => isIdentChar c && !c.isDigit && cs.all isIdentChar

/-- The tokens of a text, the identifier being read carried along: runs of
identifier characters, `::`, and single punctuation characters; blanks
separate tokens. -/
def lexChars : List Char → String → List String
  | [], cur => if cur.isEmpty then [] else [cur]
  | ':' :: ':' :: cs, cur =>
    (if cur.isEmpty then [] else [cur]) ++ "::" :: lexChars cs ""
  | c :: cs, cur =>
    if isIdentChar c then lexChars cs (cur.push c)
    else if c.isWhitespace then (if cur.isEmpty then [] else [cur]) ++ lexChars cs ""
    else (if cur.isEmpty then [] else [cur]) ++ String.singleton c :: lexChars cs ""

/-- The tokens of a macro's replacement text. -/
def lexText (s : String) : List String :=
  lexChars s.toList ""

/-- The tokens of a template parameter list `typename P, typename Q`. -/
def paramTokens : List String → List String
  | [] => []
  | [p] => ["typename", p]
  | p :: ps => "typename" :: p :: "," :: paramTokens ps

/-- The tokens of a template argument. -/
def TArg.tokens : TArg → List String
  | .param p => [p]
  | .qual ns id => [ns, "::", id]

/-- The tokens of a template argument list, separated by commas. -/
def argTokens : List TArg → List String
  | [] => []
  | [a] => a.tokens
  | a :: as => a.tokens ++ "," :: argTokens as

/-- The tokens of a declaration line, as the source writes it:
`template <typename T> using name = ns::id<args>;` and
`inline constexpr auto name = ns::id;`. -/
def Decl.tokens : Decl → List String
  | .aliasTemplate ps n t =>
    ["template", "<"] ++ paramTokens ps ++ [">", "using", n, "=", t.ns, "::", t.id, "<"] ++
      argTokens t.args ++ [">", ";"]
  | .constexprAuto n i =>
    ["inline", "constexpr", "auto", n, "=", i.ns, "::", i.id, ";"]

/-- Replacement of one token: an identifier that names an object-like macro
not already being replaced gives way to the tokens of its replacement text,
which are scanned again; the first argument bounds the nesting. -/
def expandToken (ms : List (String × String)) : Nat → List String → String → List String
  | 0, _, t => [t]
  | k + 1, active, t =>
    if isIdent t && !(active.contains t) then
      match ms.lookup t with
      | some v => (lexText v).flatMap (fun u => expandToken ms k (t :: active) u)
      | none => [t]
    else [t]

/-- Macro replacement over the tokens of a line. A nesting deeper than the
number of macros would repeat one, so that bound is never reached. -/
def expandTokens (cfg : BuildConfig) (ts : List String) : List String :=
  ts.flatMap (expandToken cfg.macros (cfg.macros.length + 1) [])

/-- The declaration lines of the selected group after macro replacement:
what the compiler proper receives. -/
def expandedLines (cfg : BuildConfig) : List (List String) :=
  (declsOf (activeGroup cfg)).map (fun d => expandTokens cfg d.tokens)

/-- A template parameter list read back from tokens, up to the closing `>`,
with the tokens that follow it. -/
def parseParams : List String → Option (List String × List String)
  | "typename" :: p :: ">" :: rest => if isIdent p then some ([p], rest) else none
  | "typename" :: p :: "," :: rest =>
    if isIdent p then
      match parseParams rest with
      | some (ps, r) => some (p :: ps, r)
      | none => none
    else none
  | _ => none

/-- A template argument list read back from tokens, up to the closing `>`,
with the tokens that follow it. -/
def parseArgs : List String → Option (List TArg × List String)
  | ns :: "::" :: id :: ">" :: rest =>
    if isIdent ns && isIdent id then some ([.qual ns id], rest) else none
  | ns :: "::" :: id :: "," :: rest =>
    if isIdent ns && isIdent id then
      match parseArgs rest with
      | some (as, r) => some (.qual ns id :: as, r)
      | none => none
    else none
  | p :: ">" :: rest => if isIdent p then some ([.param p], rest) else none
  | p :: "," :: rest =>
    if isIdent p then
      match parseArgs rest with
      | some (as, r) => some (.param p :: as, r)
      | none => none
    else none
  | _ => none

/-- A line of tokens read back as one of the two forms of declaration, when
it has that form. -/
def parseDecl : List String → Option Decl
  | "template" :: "<" :: ts =>
    match parseParams ts with
    | some (ps, "using" :: n :: "=" :: ns :: "::" :: id :: "<" :: r) =>
      match parseArgs r with
      | some (as, [";"]) =>
        if isIdent n && isIdent ns && isIdent id then some (.aliasTemplate ps n ⟨ns, id, as⟩)
        else none
      | _ => none
    | _ => none
  | ["inline", "constexpr", "auto", n, "=", ns, "::", id, ";"] =>
    if isIdent n && isIdent ns && isIdent id then some (.constexprAuto n ⟨ns, id⟩) else none
  | _ => none

/-- What a name is bound to by the selected group after macro replacement:
the first line that, read back as a declaration, introduces the name. -/
def expandedBinding (cfg : BuildConfig) (n : String) : Option Decl :=
  lookupDecl ((expandedLines cfg).filterMap parseDecl) n

/-- Whether the configuration leaves the declaration lines of the selected
group as written: no token of theirs is defined as a macro. -/
def hygienic (cfg : BuildConfig) : Bool :=
  (declsOf (activeGroup cfg)).all (fun d => d.tokens.all (fun t => !(defined cfg t)))

/-- The declaration lines the compiler proper receives from a translation
unit that reads only this header: those of a successful read, after macro
replacement. -/
def compiled (cfg : BuildConfig) : Except BuildError (List (List String)) :=
  match resolve cfg with
  | .ok tu => .ok (tu.decls.map (fun d => expandTokens cfg d.tokens))
  | .error e => .error e

/-! ## Basic facts -/

theorem activeGroup_of_defined {cfg : BuildConfig} (h : defined cfg flag = true) :
    activeGroup cfg = gpuGroup := by
  simp [activeGroup, h]

theorem activeGroup_of_not_defined {cfg : BuildConfig} (h : defined cfg flag = false) :
    activeGroup cfg = hostGroup := by
  simp [activeGroup, h]

theorem binding_of_defined {cfg : BuildConfig} (h : defined cfg flag = true) (n : String) :
    binding cfg n = lookupDecl (declsOf gpuGroup) n := by
  simp [binding, activeGroup_of_defined h]

theorem binding_of_not_defined {cfg : BuildConfig} (h : defined cfg flag = false)
    (n : String) : binding cfg n = lookupDecl (declsOf hostGroup) n := by
  simp [binding, activeGroup_of_not_defined h]

/-- Reading the GPU group: the outcome turns on `<cuda/atomic>` alone. -/
theorem processLines_gpuGroup (cfg : BuildConfig) (tu : TU) :
    processLines cfg tu gpuGroup =
      if "cuda/atomic" ∈ cfg.headers then
        .ok ⟨tu.once, tu.included ++ ["cuda/atomic"], tu.decls ++ declsOf gpuGroup⟩
      else .error (.headerNotFound "cuda/atomic") := by
  by_cases hm : "cuda/atomic" ∈ cfg.headers
  · simp [gpuGroup, processLines, processLine, declsOf, hm]
  · simp [gpuGroup, processLines, processLine, hm]

/-- Reading the host group: the outcome turns on `<atomic>` alone. -/
theorem processLines_hostGroup (cfg : BuildConfig) (tu : TU) :
    processLines cfg tu hostGroup =
      if "atomic" ∈ cfg.headers then
        .ok ⟨tu.once, tu.included ++ ["atomic"], tu.decls ++ declsOf hostGroup⟩
      else .error (.headerNotFound "atomic") := by
  by_cases hm : "atomic" ∈ cfg.headers
  · simp [hostGroup, processLines, processLine, declsOf, hm]
  · simp [hostGroup, processLines, processLine, hm]

theorem resolve_of_defined {cfg : BuildConfig} (h : defined cfg flag = true) :
    resolve cfg =
      if "cuda/atomic" ∈ cfg.headers then
        .ok ⟨[path], ["cuda/atomic"], declsOf gpuGroup⟩
      else .error (.headerNotFound "cuda/atomic") := by
  simp [resolve, atomic_h, TU.empty, activeGroup_of_defined h, processLines_gpuGroup]

theorem resolve_of_not_defined {cfg : BuildConfig} (h : defined cfg flag = false) :
    resolve cfg =
      if "atomic" ∈ cfg.headers then
        .ok ⟨[path], ["atomic"], declsOf hostGroup⟩
      else .error (.headerNotFound "atomic") := by
  simp [resolve, atomic_h, TU.empty, activeGroup_of_not_defined h, processLines_hostGroup]

/-- A successful read leaves exactly the declarations of the selected group. -/
theorem resolve_ok_decls {cfg : BuildConfig} {tu : TU} (h : resolve cfg = .ok tu) :
    tu.decls = declsOf (activeGroup cfg) := by
  cases hd : defined cfg flag
  · rw [resolve_of_not_defined hd] at h
    rw [activeGroup_of_not_defined hd]
    split at h
    · cases h; rfl
    · cases h
  · rw [resolve_of_defined hd] at h
    rw [activeGroup_of_defined hd]
    split at h
    · cases h; rfl
    · cases h

/-- The header read a second time adds nothing (`#pragma once`). -/
theorem atomic_h_again {cfg : BuildConfig} {tu tu' : TU} (hp : path ∉ tu.once)
    (h : atomic_h cfg tu = .ok tu') : atomic_h cfg tu' = .ok tu' := by
  have hin : path ∈ tu'.once := by
    simp only [atomic_h, hp, if_false] at h
    cases hd : defined cfg flag
    · rw [activeGroup_of_not_defined hd, processLines_hostGroup] at h
      split at h
      · cases h; simp
      · cases h
    · rw [activeGroup_of_defined hd, processLines_gpuGroup] at h
      split at h
      · cases h; simp
      · cases h
  simp [atomic_h, hin]

/-- A token that names no macro is left alone. -/
theorem expandToken_of_lookup_none (ms : List (String × String)) (k : Nat)
    (active : List String) (t : String) (h : ms.lookup t = none) :
    expandToken ms k active t = [t] := by
  cases k with
  | zero => simp [expandToken]
  | succ k => simp [expandToken, h]

/-- A name with a definition is among the names the macro table defines. -/
theorem mem_keys_of_lookup (ms : List (String × String)) (a : String)
    (h : (ms.lookup a).isSome = true) : a ∈ ms.map Prod.fst := by
  induction ms with
  | nil => simp [List.lookup] at h
  | cons p ms ih =>
    obtain ⟨k, v⟩ := p
    by_cases hk : a = k
    · simp [hk]
    · have hb : (a == k) = false := by simpa using hk
      simp only [List.lookup, hb] at h
      simp [ih h]

/-- The nesting bound of `expandTokens` is never reached: once the bound
exceeds the number of macros not yet being replaced, a larger one gives the
same tokens. -/
theorem expandToken_succ (ms : List (String × String)) :
    ∀ (k : Nat) (active : List String) (t : String), active.Nodup →
      (∀ a ∈ active, (ms.lookup a).isSome = true) → ms.length < k + active.length →
      expandToken ms (k + 1) active t = expandToken ms k active t := by
  intro k
  induction k with
  | zero =>
    intro active t hnd hkeys hlen
    by_cases hc : isIdent t = true ∧ t ∉ active
    · cases hl : ms.lookup t with
      | none => simp [expandToken, hl]
      | some v =>
        exfalso
        have hsub : (t :: active) ⊆ ms.map Prod.fst := by
          intro a ha
          rcases List.mem_cons.mp ha with rfl | ha
          · exact mem_keys_of_lookup ms _ (by simp [hl])
          · exact mem_keys_of_lookup ms a (hkeys a ha)
        have hle := ((List.nodup_cons.mpr ⟨hc.2, hnd⟩).subperm hsub).length_le
        simp at hle
        omega
    · simp [expandToken, hc]
  | succ k ih =>
    intro active t hnd hkeys hlen
    by_cases hc : isIdent t = true ∧ t ∉ active
    · cases hl : ms.lookup t with
      | none => simp [expandToken, hl]
      | some v =>
        have hrec : ∀ u, expandToken ms (k + 1) (t :: active) u =
            expandToken ms k (t :: active) u := by
          intro u
          apply ih (t :: active) u (List.nodup_cons.mpr ⟨hc.2, hnd⟩)
          · intro a ha
            rcases List.mem_cons.mp ha with rfl | ha
            · simp [hl]
            · exact hkeys a ha
          · simp only [List.length_cons]; omega
        rw [expandToken, expandToken]
        simp only [hrec]
    · rw [expandToken, expandToken]
      simp [hc]

/-- Any nesting bound above the one `expandTokens` uses gives the same tokens. -/
theorem expandToken_bound_enough (ms : List (String × String)) (t : String) (k : Nat) :
    expandToken ms (ms.length + 1 + k) [] t = expandToken ms (ms.length + 1) [] t := by
  induction k with
  | zero => rfl
  | succ k ih =>
    rw [← ih]
    exact expandToken_succ ms (ms.length + 1 + k) [] t List.nodup_nil
      (fun a ha => absurd ha (List.not_mem_nil a)) (by simp only [List.length_nil]; omega)

/-- Tokens none of which names a macro are left as written. -/
theorem expandTokens_of_not_defined (cfg : BuildConfig) (ts : List String)
    (h : ∀ t ∈ ts, defined cfg t = false) : expandTokens cfg ts = ts := by
  have step : ∀ t, defined cfg t = false →
      expandToken cfg.macros (cfg.macros.length + 1) [] t = [t] := by
    intro t ht
    apply expandToken_of_lookup_none
    simpa [defined] using ht
  unfold expandTokens
  induction ts with
  | nil => rfl
  | cons t ts ih =>
    rw [List.flatMap_cons, step t (h t (List.mem_cons_self t ts)),
      ih (fun u hu => h u (List.mem_cons_of_mem t hu))]
    rfl

/-- What `hygienic` says, token by token. -/
theorem not_defined_of_hygienic {cfg : BuildConfig} (h : hygienic cfg = true) :
    ∀ d ∈ declsOf (activeGroup cfg), ∀ t ∈ d.tokens, defined cfg t = false := by
  intro d hd t ht
  simp only [hygienic, List.all_eq_true] at h
  simpa using h d hd t ht

/-- Macro replacement over declarations that it leaves as written. -/
theorem map_expandTokens_of_not_defined (cfg : BuildConfig) (ds : List Decl)
    (h : ∀ d ∈ ds, ∀ t ∈ d.tokens, defined cfg t = false) :
    ds.map (fun d => expandTokens cfg d.tokens) = ds.map Decl.tokens := by
  apply List.map_congr_left
  intro d hd
  exact expandTokens_of_not_defined cfg d.tokens (h d hd)

/-- A hygienic configuration hands the selected lines on as written. -/
theorem expandedLines_of_hygienic {cfg : BuildConfig} (h : hygienic cfg = true) :
    expandedLines cfg = (declsOf (activeGroup cfg)).map Decl.tokens :=
  map_expandTokens_of_not_defined cfg _ (not_defined_of_hygienic h)

/-- Each declaration of the header is read back from its own tokens. -/
theorem filterMap_parseDecl_tokens (cfg : BuildConfig) :
    ((declsOf (activeGroup cfg)).map Decl.tokens).filterMap parseDecl =
      declsOf (activeGroup cfg) := by
  cases hd : defined cfg flag
  · rw [activeGroup_of_not_defined hd]; decide
  · rw [activeGroup_of_defined hd]; decide

/-- In a hygienic configuration a name is bound after macro replacement to
what the selected group binds it to as written. -/
theorem expandedBinding_of_hygienic {cfg : BuildConfig} (h : hygienic cfg = true)
    (n : String) : expandedBinding cfg n = binding cfg n := by
  simp only [expandedBinding, binding, expandedLines_of_hygienic h,
    filterMap_parseDecl_tokens]

/-- In a hygienic configuration a successful read hands on the selected lines
as written. -/
theorem compiled_of_hygienic {cfg : BuildConfig} (h : hygienic cfg = true) {tu : TU}
    (htu : resolve cfg = .ok tu) :
    compiled cfg = .ok ((declsOf (activeGroup cfg)).map Decl.tokens) := by
  simp only [compiled, htu, resolve_ok_decls htu]
  rw [map_expandTokens_of_not_defined cfg _ (not_defined_of_hygienic h)]

/-- Two reads that succeed under the same value of the flag give the same
translation unit. -/
theorem resolve_eq_of_agree {c1 c2 : BuildConfig} (h : defined c1 flag = defined c2 flag)
    {tu1 tu2 : TU} (h1 : resolve c1 = .ok tu1) (h2 : resolve c2 = .ok tu2) : tu1 = tu2 := by
  cases hd : defined c2 flag
  · rw [resolve_of_not_defined hd] at h2
    rw [resolve_of_not_defined (h.trans hd)] at h1
    split at h1
    · split at h2
      · cases h1; cases h2; rfl
      · cases h2
    · cases h1
  · rw [resolve_of_defined hd] at h2
    rw [resolve_of_defined (h.trans hd)] at h1
    split at h1
    · split at h2
      · cases h1; cases h2; rfl
      · cases h2
    · cases h1

/-- The two groups bind each of the six names, and differently. -/
theorem groups_differ : ∀ n ∈ exportedNames,
    (lookupDecl (declsOf gpuGroup) n).isSome = true ∧
    (lookupDecl (declsOf hostGroup) n).isSome = true ∧
    lookupDecl (declsOf gpuGroup) n ≠ lookupDecl (declsOf hostGroup) n := by
  decide

/-! ## The flag set: the GPU-portable backend -/

/-- C1: in every build configuration that defines `_NVHPC_STDPAR_GPU`, the
six names are bound to the cuda definitions: `atomic` to
`cuda::atomic<T, cuda::thread_scope_system>`, `atomic_ref` to
`cuda::atomic_ref<T, cuda::thread_scope_system>`, and each ordering constant
to the cuda constant; both templates carry the system scope; and when
`<cuda/atomic>` is found, the translation unit read from the header holds
exactly these bindings. -/
theorem flag_defined_binds_cuda (cfg : BuildConfig) (h : defined cfg flag = true) :
    binding cfg "atomic" = some (.aliasTemplate ["T"] "atomic"
      ⟨"cuda", "atomic", [.param "T", .qual "cuda" "thread_scope_system"]⟩) ∧
    binding cfg "atomic_ref" = some (.aliasTemplate ["T"] "atomic_ref"
      ⟨"cuda", "atomic_ref", [.param "T", .qual "cuda" "thread_scope_system"]⟩) ∧
    binding cfg "memory_order_relaxed" =
      some (.constexprAuto "memory_order_relaxed" ⟨"cuda", "memory_order_relaxed"⟩) ∧
    binding cfg "memory_order_acquire" =
      some (.constexprAuto "memory_order_acquire" ⟨"cuda", "memory_order_acquire"⟩) ∧
    binding cfg "memory_order_release" =
      some (.constexprAuto "memory_order_release" ⟨"cuda", "memory_order_release"⟩) ∧
    binding cfg "memory_order_acq_rel" =
      some (.constexprAuto "memory_order_acq_rel" ⟨"cuda", "memory_order_acq_rel"⟩) ∧
    (∀ n ∈ ["atomic", "atomic_ref"],
      ∃ d, binding cfg n = some d ∧ d.scopeArgs = [systemScope]) ∧
    ("cuda/atomic" ∈ cfg.headers →
      ∃ tu, resolve cfg = .ok tu ∧ ∀ n, lookupDecl tu.decls n = binding cfg n) := by
  refine ⟨?_, ?_, ?_, ?_, ?_, ?_, ?_, ?_⟩
  · rw [binding_of_defined h]; decide
  · rw [binding_of_defined h]; decide
  · rw [binding_of_defined h]; decide
  · rw [binding_of_defined h]; decide
  · rw [binding_of_defined h]; decide
  · rw [binding_of_defined h]; decide
  · intro n hn
    rw [binding_of_defined h]
    simp only [List.mem_cons, List.mem_singleton, List.not_mem_nil, or_false] at hn
    rcases hn with rfl | rfl
    · exact ⟨_, rfl, by decide⟩
    · exact ⟨_, rfl, by decide⟩
  · intro hm
    refine ⟨⟨[path], ["cuda/atomic"], declsOf gpuGroup⟩, ?_, ?_⟩
    · rw [resolve_of_defined h, if_pos hm]
    · intro n
      rw [binding_of_defined h]

/-- C1 at a configuration that defines the flag as `1` and finds both headers. -/
theorem flag_defined_binds_cuda_witness :
    defined ⟨[("_NVHPC_STDPAR_GPU", "1")], ["atomic", "cuda/atomic"]⟩ flag = true ∧
    binding ⟨[("_NVHPC_STDPAR_GPU", "1")], ["atomic", "cuda/atomic"]⟩ "atomic_ref" =
      some (.aliasTemplate ["T"] "atomic_ref"
        ⟨"cuda", "atomic_ref", [.param "T", .qual "cuda" "thread_scope_system"]⟩) ∧
    ∃ tu, resolve ⟨[("_NVHPC_STDPAR_GPU", "1")], ["atomic", "cuda/atomic"]⟩ = .ok tu ∧
      ∀ n, lookupDecl tu.decls n =
        binding ⟨[("_NVHPC_STDPAR_GPU", "1")], ["atomic", "cuda/atomic"]⟩ n :=
  ⟨by decide,
   (flag_defined_binds_cuda ⟨[("_NVHPC_STDPAR_GPU", "1")], ["atomic", "cuda/atomic"]⟩
      (by decide)).2.1,
   (flag_defined_binds_cuda ⟨[("_NVHPC_STDPAR_GPU", "1")], ["atomic", "cuda/atomic"]⟩
      (by decide)).2.2.2.2.2.2.2 (by decide)⟩

/-! ## The flag unset: the host-standard backend -/

/-- C2: in every build configuration that leaves `_NVHPC_STDPAR_GPU`
undefined, the six names are bound to the std definitions: `atomic` to
`std::atomic<T>`, `atomic_ref` to `std::atomic_ref<T>`, and each ordering
constant to the std constant; no declaration of the selected group mentions
the cuda namespace or carries a scope argument; and when `<atomic>` is found,
the translation unit read from the header holds exactly these bindings. -/
theorem flag_undefined_binds_std (cfg : BuildConfig) (h : defined cfg flag = false) :
    binding cfg "atomic" =
      some (.aliasTemplate ["T"] "atomic" ⟨"std", "atomic", [.param "T"]⟩) ∧
    binding cfg "atomic_ref" =
      some (.aliasTemplate ["T"] "atomic_ref" ⟨"std", "atomic_ref", [.param "T"]⟩) ∧
    binding cfg "memory_order_relaxed" =
      some (.constexprAuto "memory_order_relaxed" ⟨"std", "memory_order_relaxed"⟩) ∧
    binding cfg "memory_order_acquire" =
      some (.constexprAuto "memory_order_acquire" ⟨"std", "memory_order_acquire"⟩) ∧
    binding cfg "memory_order_release" =
      some (.constexprAuto "memory_order_release" ⟨"std", "memory_order_release"⟩) ∧
    binding cfg "memory_order_acq_rel" =
      some (.constexprAuto "memory_order_acq_rel" ⟨"std", "memory_order_acq_rel"⟩) ∧
    (∀ n d, binding cfg n = some d →
      d.targetNs = "std" ∧ d.mentionsNs "cuda" = false ∧ d.scopeArgs = []) ∧
    ("atomic" ∈ cfg.headers →
      ∃ tu, resolve cfg = .ok tu ∧ ∀ n, lookupDecl tu.decls n = binding cfg n) := by
  refine ⟨?_, ?_, ?_, ?_, ?_, ?_, ?_, ?_⟩
  · rw [binding_of_not_defined h]; decide
  · rw [binding_of_not_defined h]; decide
  · rw [binding_of_not_defined h]; decide
  · rw [binding_of_not_defined h]; decide
  · rw [binding_of_not_defined h]; decide
  · rw [binding_of_not_defined h]; decide
  · intro n d hd
    rw [binding_of_not_defined h] at hd
    have hmem : d ∈ declsOf hostGroup := List.mem_of_find?_eq_some hd
    have hall : ∀ e ∈ declsOf hostGroup,
        e.targetNs = "std" ∧ e.mentionsNs "cuda" = false ∧ e.scopeArgs = [] := by
      decide
    exact hall d hmem
  · intro hm
    refine ⟨⟨[path], ["atomic"], declsOf hostGroup⟩, ?_, ?_⟩
    · rw [resolve_of_not_defined h, if_pos hm]
    · intro n
      rw [binding_of_not_defined h]

/-- C2 at a configuration with no macro defined and both headers found. -/
theorem flag_undefined_binds_std_witness :
    defined ⟨[], ["atomic", "cuda/atomic"]⟩ flag = false ∧
    binding ⟨[], ["atomic", "cuda/atomic"]⟩ "atomic_ref" =
      some (.aliasTemplate ["T"] "atomic_ref" ⟨"std", "atomic_ref", [.param "T"]⟩) ∧
    ∃ tu, resolve ⟨[], ["atomic", "cuda/atomic"]⟩ = .ok tu ∧
      ∀ n, lookupDecl tu.decls n = binding ⟨[], ["atomic", "cuda/atomic"]⟩ n :=
  ⟨by decide,
   (flag_undefined_binds_std ⟨[], ["atomic", "cuda/atomic"]⟩ (by decide)).2.1,
   (flag_undefined_binds_std ⟨[], ["atomic", "cuda/atomic"]⟩
      (by decide)).2.2.2.2.2.2.2 (by decide)⟩

/-! ## One backend per configuration -/

/-- C3: for every configuration there is exactly one backend to which the
selected group binds all six names (and nothing but them): never a mixture,
never both, never none. A translation unit read from the header has the same
property, and reading the header again leaves it unchanged. -/
theorem exactly_one_backend (cfg : BuildConfig) :
    (∃! b : Backend, allFrom (declsOf (activeGroup cfg)) b = true) ∧
    (∀ tu, resolve cfg = .ok tu →
      (∃! b : Backend, allFrom tu.decls b = true) ∧ atomic_h cfg tu = .ok tu) := by
  have key : ∃! b : Backend, allFrom (declsOf (activeGroup cfg)) b = true := by
    cases hd : defined cfg flag
    · rw [activeGroup_of_not_defined hd]
      refine ⟨.std, by decide, ?_⟩
      intro b hb
      cases b
      · exact absurd hb (by decide)
      · rfl
    · rw [activeGroup_of_defined hd]
      refine ⟨.cuda, by decide, ?_⟩
      intro b hb
      cases b
      · rfl
      · exact absurd hb (by decide)
  refine ⟨key, ?_⟩
  intro tu htu
  refine ⟨?_, ?_⟩
  · rw [resolve_ok_decls htu]
    exact key
  · exact atomic_h_again (by decide) htu

/-- C3 at a configuration that defines the flag and finds `<cuda/atomic>`. -/
theorem exactly_one_backend_witness :
    resolve ⟨[("_NVHPC_STDPAR_GPU", "1")], ["cuda/atomic"]⟩ =
      .ok ⟨[path], ["cuda/atomic"], declsOf gpuGroup⟩ ∧
    (∃! b : Backend, allFrom (declsOf gpuGroup) b = true) ∧
    atomic_h ⟨[("_NVHPC_STDPAR_GPU", "1")], ["cuda/atomic"]⟩
        ⟨[path], ["cuda/atomic"], declsOf gpuGroup⟩ =
      .ok ⟨[path], ["cuda/atomic"], declsOf gpuGroup⟩ :=
  ⟨rfl,
   ((exactly_one_backend ⟨[("_NVHPC_STDPAR_GPU", "1")], ["cuda/atomic"]⟩).2
      ⟨[path], ["cuda/atomic"], declsOf gpuGroup⟩ rfl).1,
   ((exactly_one_backend ⟨[("_NVHPC_STDPAR_GPU", "1")], ["cuda/atomic"]⟩).2
      ⟨[path], ["cuda/atomic"], declsOf gpuGroup⟩ rfl).2⟩

/-! ## The exported names -/

/-- C4: whatever the configuration, the selected group exports exactly the
type templates `atomic` and `atomic_ref`, each with the one parameter `T`,
and the constants `memory_order_relaxed`, `memory_order_acquire`,
`memory_order_release`, `memory_order_acq_rel`; so any two configurations
export the same names with the same kinds, and so does every translation
unit read from the header. -/
theorem exported_names_fixed (cfg : BuildConfig) :
    exports (declsOf (activeGroup cfg)) =
      [("atomic", .typeTemplate ["T"]), ("atomic_ref", .typeTemplate ["T"]),
       ("memory_order_relaxed", .constant), ("memory_order_acquire", .constant),
       ("memory_order_release", .constant), ("memory_order_acq_rel", .constant)] ∧
    (∀ cfg' : BuildConfig,
      exports (declsOf (activeGroup cfg')) = exports (declsOf (activeGroup cfg))) ∧
    (∀ tu, resolve cfg = .ok tu → exports tu.decls = exports (declsOf (activeGroup cfg))) := by
  have key : ∀ c : BuildConfig, exports (declsOf (activeGroup c)) =
      [("atomic", .typeTemplate ["T"]), ("atomic_ref", .typeTemplate ["T"]),
       ("memory_order_relaxed", .constant), ("memory_order_acquire", .constant),
       ("memory_order_release", .constant), ("memory_order_acq_rel", .constant)] := by
    intro c
    cases hd : defined c flag
    · rw [activeGroup_of_not_defined hd]; rfl
    · rw [activeGroup_of_defined hd]; rfl
  refine ⟨key cfg, ?_, ?_⟩
  · intro cfg'
    rw [key cfg', key cfg]
  · intro tu htu
    rw [resolve_ok_decls htu]

/-- C4 at a host configuration, compared with a GPU configuration. -/
theorem exported_names_fixed_witness :
    exports (declsOf (activeGroup ⟨[("_NVHPC_STDPAR_GPU", "1")], ["cuda/atomic"]⟩)) =
      exports (declsOf (activeGroup ⟨[], ["atomic"]⟩)) ∧
    exports (declsOf hostGroup) = exports (declsOf (activeGroup ⟨[], ["atomic"]⟩)) :=
  ⟨(exported_names_fixed ⟨[], ["atomic"]⟩).2.1 ⟨[("_NVHPC_STDPAR_GPU", "1")], ["cuda/atomic"]⟩,
   (exported_names_fixed ⟨[], ["atomic"]⟩).2.2 ⟨[path], ["atomic"], declsOf hostGroup⟩ rfl⟩

/-! ## The ordering constants -/

/-- C5: in either configuration there is one backend, cuda exactly when the
flag is defined, whose header the selected group includes and such that each
of the four ordering constants is initialised with that backend's constant
of the same name; so an exported constant whose initialiser is a given
backend constant carries that constant's name. -/
theorem ordering_constants_relayed (cfg : BuildConfig) :
    ∃ b : Backend, (b = .cuda ↔ defined cfg flag = true) ∧
      includesOf (activeGroup cfg) = [b.header] ∧
      (∀ n ∈ orderNames, binding cfg n = some (.constexprAuto n ⟨b.ns, n⟩)) ∧
      (∀ n ∈ orderNames, ∀ m ∈ orderNames, ∀ d,
        binding cfg n = some d → d.targetId = m → n = m) := by
  have cross : ∀ b : Backend,
      (∀ n ∈ orderNames, binding cfg n = some (.constexprAuto n ⟨b.ns, n⟩)) →
      ∀ n ∈ orderNames, ∀ m ∈ orderNames, ∀ d,
        binding cfg n = some d → d.targetId = m → n = m := by
    intro b hb n hn m _ d hd hm
    rw [hb n hn] at hd
    cases hd
    exact hm
  cases hd : defined cfg flag
  · have hb : ∀ n ∈ orderNames,
        binding cfg n = some (.constexprAuto n ⟨Backend.std.ns, n⟩) := by
      intro n hn
      rw [binding_of_not_defined hd]
      simp only [orderNames, List.mem_cons, List.mem_singleton, List.not_mem_nil,
        or_false] at hn
      rcases hn with rfl | rfl | rfl | rfl <;> rfl
    refine ⟨.std, by simp, ?_, hb, cross _ hb⟩
    rw [activeGroup_of_not_defined hd]; rfl
  · have hb : ∀ n ∈ orderNames,
        binding cfg n = some (.constexprAuto n ⟨Backend.cuda.ns, n⟩) := by
      intro n hn
      rw [binding_of_defined hd]
      simp only [orderNames, List.mem_cons, List.mem_singleton, List.not_mem_nil,
        or_false] at hn
      rcases hn with rfl | rfl | rfl | rfl <;> rfl
    refine ⟨.cuda, by simp, ?_, hb, cross _ hb⟩
    rw [activeGroup_of_defined hd]; rfl

/-- C5 at a host configuration: `memory_order_acquire` is `std::memory_order_acquire`. -/
theorem ordering_constants_relayed_witness :
    defined ⟨[], ["atomic"]⟩ flag = false ∧
    binding ⟨[], ["atomic"]⟩ "memory_order_acquire" =
      some (.constexprAuto "memory_order_acquire" ⟨"std", "memory_order_acquire"⟩) :=
  ⟨by decide,
   match ordering_constants_relayed ⟨[], ["atomic"]⟩ with
   | ⟨.cuda, hb, _, _, _⟩ => absurd (hb.mp rfl) (by decide)
   | ⟨.std, _, _, hn, _⟩ => hn "memory_order_acquire" (by decide)⟩

/-! ## The missing GPU library -/

/-- C6: when `_NVHPC_STDPAR_GPU` is defined and `<cuda/atomic>` is not found,
reading the header fails with the error for that include, from the empty
translation unit and from any other that has not read the header yet; it
never yields a translation unit, so none with the std bindings, whether or
not `<atomic>` is found. -/
theorem missing_cuda_header_is_error (cfg : BuildConfig) (h : defined cfg flag = true)
    (hm : "cuda/atomic" ∉ cfg.headers) :
    resolve cfg = .error (.headerNotFound "cuda/atomic") ∧
    (∀ tu, resolve cfg ≠ .ok tu) ∧
    (∀ tu0, path ∉ tu0.once →
      atomic_h cfg tu0 = .error (.headerNotFound "cuda/atomic")) := by
  have hr : resolve cfg = .error (.headerNotFound "cuda/atomic") := by
    rw [resolve_of_defined h, if_neg hm]
  refine ⟨hr, ?_, ?_⟩
  · intro tu htu
    rw [hr] at htu
    cases htu
  · intro tu0 hp
    simp only [atomic_h, hp, if_false]
    rw [activeGroup_of_defined h, processLines_gpuGroup, if_neg hm]

/-- C6 at a configuration that defines the flag and finds `<atomic>` only. -/
theorem missing_cuda_header_is_error_witness :
    defined ⟨[("_NVHPC_STDPAR_GPU", "1")], ["atomic"]⟩ flag = true ∧
    "cuda/atomic" ∉ (["atomic"] : List String) ∧
    resolve ⟨[("_NVHPC_STDPAR_GPU", "1")], ["atomic"]⟩ =
      .error (.headerNotFound "cuda/atomic") :=
  ⟨by decide, by decide,
   (missing_cuda_header_is_error ⟨[("_NVHPC_STDPAR_GPU", "1")], ["atomic"]⟩
      (by decide) (by decide)).1⟩

/-! ## The one condition tested -/

/-- C8, as stated, fails: the declaration lines are ordinary text, so macros
other than the flag reach them. Two GPU configurations, both finding
`<cuda/atomic>` and both read with success, agree on the flag and differ
in a macro for `thread_scope_system`: the first binds `atomic` to
`cuda::atomic<T, cuda::thread_scope_system>`, the second to
`cuda::atomic<T, cuda::thread_scope_device>`. And a host configuration with a
macro `std` for `cuda`, read with success, binds `memory_order_relaxed` to
the very constant the GPU configuration binds it to, though the two disagree
on the flag. -/
theorem bindings_depend_on_flag_only_counterexample :
    defined ⟨[("_NVHPC_STDPAR_GPU", "1")], ["cuda/atomic"]⟩ flag =
      defined ⟨[("_NVHPC_STDPAR_GPU", "1"), ("thread_scope_system", "thread_scope_device")],
        ["cuda/atomic"]⟩ flag ∧
    resolve ⟨[("_NVHPC_STDPAR_GPU", "1")], ["cuda/atomic"]⟩ =
      .ok ⟨[path], ["cuda/atomic"], declsOf gpuGroup⟩ ∧
    resolve ⟨[("_NVHPC_STDPAR_GPU", "1"), ("thread_scope_system", "thread_scope_device")],
        ["cuda/atomic"]⟩ =
      .ok ⟨[path], ["cuda/atomic"], declsOf gpuGroup⟩ ∧
    expandedBinding ⟨[("_NVHPC_STDPAR_GPU", "1")], ["cuda/atomic"]⟩ "atomic" =
      some (.aliasTemplate ["T"] "atomic"
        ⟨"cuda", "atomic", [.param "T", .qual "cuda" "thread_scope_system"]⟩) ∧
    expandedBinding
        ⟨[("_NVHPC_STDPAR_GPU", "1"), ("thread_scope_system", "thread_scope_device")],
          ["cuda/atomic"]⟩ "atomic" =
      some (.aliasTemplate ["T"] "atomic"
        ⟨"cuda", "atomic", [.param "T", .qual "cuda" "thread_scope_device"]⟩) ∧
    expandedBinding ⟨[("_NVHPC_STDPAR_GPU", "1")], ["cuda/atomic"]⟩ "atomic" ≠
      expandedBinding
        ⟨[("_NVHPC_STDPAR_GPU", "1"), ("thread_scope_system", "thread_scope_device")],
          ["cuda/atomic"]⟩ "atomic" ∧
    defined ⟨[("_NVHPC_STDPAR_GPU", "1")], ["cuda/atomic"]⟩ flag ≠
      defined ⟨[("std", "cuda")], ["atomic", "cuda/atomic"]⟩ flag ∧
    resolve ⟨[("std", "cuda")], ["atomic", "cuda/atomic"]⟩ =
      .ok ⟨[path], ["atomic"], declsOf hostGroup⟩ ∧
    expandedBinding ⟨[("_NVHPC_STDPAR_GPU", "1")], ["cuda/atomic"]⟩ "memory_order_relaxed" =
      expandedBinding ⟨[("std", "cuda")], ["atomic", "cuda/atomic"]⟩ "memory_order_relaxed" := by
  refine ⟨by decide, rfl, rfl, by decide, by decide, by decide, by decide, rfl, by decide⟩

/-- C8, amended: among configurations that define no token of the selected
group's declaration lines as a macro, the bindings depend on the flag alone.
Two such configurations that agree on whether `_NVHPC_STDPAR_GPU` is defined
hand the same declaration lines to the compiler and bind every name
identically, whatever else their macros and headers are, and when both reads
succeed they give the same translation unit and the same compiled lines; two
such configurations that disagree on it bind each of the six names, and bind
it differently. -/
theorem hygienic_bindings_depend_on_flag_only (c1 c2 : BuildConfig)
    (h1 : hygienic c1 = true) (h2 : hygienic c2 = true) :
    (defined c1 flag = defined c2 flag →
      expandedLines c1 = expandedLines c2 ∧
      (∀ n, expandedBinding c1 n = expandedBinding c2 n) ∧
      ((∃ tu, resolve c1 = .ok tu) → (∃ tu, resolve c2 = .ok tu) →
        resolve c1 = resolve c2 ∧ compiled c1 = compiled c2)) ∧
    (defined c1 flag ≠ defined c2 flag →
      ∀ n ∈ exportedNames,
        (expandedBinding c1 n).isSome = true ∧ (expandedBinding c2 n).isSome = true ∧
        expandedBinding c1 n ≠ expandedBinding c2 n) := by
  refine ⟨?_, ?_⟩
  · intro h
    have hg : activeGroup c1 = activeGroup c2 := by
      simp [activeGroup, h]
    refine ⟨?_, ?_, ?_⟩
    · rw [expandedLines_of_hygienic h1, expandedLines_of_hygienic h2, hg]
    · intro n
      rw [expandedBinding_of_hygienic h1, expandedBinding_of_hygienic h2]
      simp [binding, hg]
    · rintro ⟨tu1, e1⟩ ⟨tu2, e2⟩
      have htu : tu1 = tu2 := resolve_eq_of_agree h e1 e2
      refine ⟨?_, ?_⟩
      · rw [e1, e2, htu]
      · rw [compiled_of_hygienic h1 e1, compiled_of_hygienic h2 e2, hg]
  · intro h n hn
    rw [expandedBinding_of_hygienic h1, expandedBinding_of_hygienic h2]
    cases d1 : defined c1 flag <;> cases d2 : defined c2 flag
    · exact absurd (d1.trans d2.symm) h
    · rw [binding_of_not_defined d1, binding_of_defined d2]
      exact ⟨(groups_differ n hn).2.1, (groups_differ n hn).1,
        fun e => (groups_differ n hn).2.2 e.symm⟩
    · rw [binding_of_defined d1, binding_of_not_defined d2]
      exact groups_differ n hn
    · exact absurd (d1.trans d2.symm) h

/-- C8, amended, at three configurations that all build: two GPU
configurations that differ in their other macros, in the replacement text of
the flag and in their headers, and a host configuration. -/
theorem hygienic_bindings_depend_on_flag_only_witness :
    hygienic ⟨[("NDEBUG", ""), ("_NVHPC_STDPAR_GPU", "1")], ["cuda/atomic"]⟩ = true ∧
    hygienic ⟨[("_NVHPC_STDPAR_GPU", "0"), ("_OPENMP", "201511")],
      ["atomic", "cuda/atomic"]⟩ = true ∧
    hygienic ⟨[("NDEBUG", "")], ["atomic"]⟩ = true ∧
    expandedBinding ⟨[("NDEBUG", ""), ("_NVHPC_STDPAR_GPU", "1")], ["cuda/atomic"]⟩
        "atomic_ref" =
      expandedBinding ⟨[("_NVHPC_STDPAR_GPU", "0"), ("_OPENMP", "201511")],
        ["atomic", "cuda/atomic"]⟩ "atomic_ref" ∧
    compiled ⟨[("NDEBUG", ""), ("_NVHPC_STDPAR_GPU", "1")], ["cuda/atomic"]⟩ =
      compiled ⟨[("_NVHPC_STDPAR_GPU", "0"), ("_OPENMP", "201511")],
        ["atomic", "cuda/atomic"]⟩ ∧
    resolve ⟨[("NDEBUG", "")], ["atomic"]⟩ = .ok ⟨[path], ["atomic"], declsOf hostGroup⟩ ∧
    expandedBinding ⟨[("NDEBUG", ""), ("_NVHPC_STDPAR_GPU", "1")], ["cuda/atomic"]⟩
        "atomic" ≠
      expandedBinding ⟨[("NDEBUG", "")], ["atomic"]⟩ "atomic" :=
  ⟨by decide, by decide, by decide,
   ((hygienic_bindings_depend_on_flag_only
      ⟨[("NDEBUG", ""), ("_NVHPC_STDPAR_GPU", "1")], ["cuda/atomic"]⟩
      ⟨[("_NVHPC_STDPAR_GPU", "0"), ("_OPENMP", "201511")], ["atomic", "cuda/atomic"]⟩
      (by decide) (by decide)).1 (by decide)).2.1 "atomic_ref",
   (((hygienic_bindings_depend_on_flag_only
      ⟨[("NDEBUG", ""), ("_NVHPC_STDPAR_GPU", "1")], ["cuda/atomic"]⟩
      ⟨[("_NVHPC_STDPAR_GPU", "0"), ("_OPENMP", "201511")], ["atomic", "cuda/atomic"]⟩
      (by decide) (by decide)).1 (by decide)).2.2
        ⟨⟨[path], ["cuda/atomic"], declsOf gpuGroup⟩, rfl⟩
        ⟨⟨[path], ["cuda/atomic"], declsOf gpuGroup⟩, rfl⟩).2,
   rfl,
   ((hygienic_bindings_depend_on_flag_only
      ⟨[("NDEBUG", ""), ("_NVHPC_STDPAR_GPU", "1")], ["cuda/atomic"]⟩
      ⟨[("NDEBUG", "")], ["atomic"]⟩
      (by decide) (by decide)).2 (by decide) "atomic" (by decide)).2.2⟩

/-! ## Defined, not true -/

/-- C9: the selection looks at whether `_NVHPC_STDPAR_GPU` has a definition,
not at its replacement text: with any replacement text, `0` and the empty
text included, the GPU group is selected and all six names come from cuda;
the host group is selected, and the names come from std, exactly when the
macro has no definition. -/
theorem selection_tests_definedness (cfg : BuildConfig) :
    (∀ v, cfg.macros.lookup flag = some v →
      activeGroup cfg = gpuGroup ∧ allFrom (declsOf (activeGroup cfg)) .cuda = true) ∧
    (cfg.macros.lookup flag = none ↔ activeGroup cfg = hostGroup) ∧
    (cfg.macros.lookup flag = none ↔ allFrom (declsOf (activeGroup cfg)) .std = true) := by
  refine ⟨?_, ?_, ?_⟩
  · intro v hv
    have hd : defined cfg flag = true := by simp [defined, hv]
    rw [activeGroup_of_defined hd]
    exact ⟨rfl, by decide⟩
  · constructor
    · intro hn
      exact activeGroup_of_not_defined (by simp [defined, hn])
    · intro hg
      cases hl : cfg.macros.lookup flag with
      | none => rfl
      | some v =>
        have hd : defined cfg flag = true := by simp [defined, hl]
        rw [activeGroup_of_defined hd] at hg
        exact absurd hg (by decide)
  · constructor
    · intro hn
      rw [activeGroup_of_not_defined (by simp [defined, hn])]
      decide
    · intro hg
      cases hl : cfg.macros.lookup flag with
      | none => rfl
      | some v =>
        have hd : defined cfg flag = true := by simp [defined, hl]
        rw [activeGroup_of_defined hd] at hg
        exact absurd hg (by decide)

/-- C9 at the configurations that define the flag as `0` and as the empty text. -/
theorem selection_tests_definedness_witness :
    (activeGroup ⟨[("_NVHPC_STDPAR_GPU", "0")], ["atomic", "cuda/atomic"]⟩ = gpuGroup ∧
      allFrom (declsOf (activeGroup
        ⟨[("_NVHPC_STDPAR_GPU", "0")], ["atomic", "cuda/atomic"]⟩)) .cuda = true) ∧
    (activeGroup ⟨[("_NVHPC_STDPAR_GPU", "")], ["atomic", "cuda/atomic"]⟩ = gpuGroup ∧
      allFrom (declsOf (activeGroup
        ⟨[("_NVHPC_STDPAR_GPU", "")], ["atomic", "cuda/atomic"]⟩)) .cuda = true) :=
  ⟨(selection_tests_definedness
      ⟨[("_NVHPC_STDPAR_GPU", "0")], ["atomic", "cuda/atomic"]⟩).1 "0" (by decide),
   (selection_tests_definedness
      ⟨[("_NVHPC_STDPAR_GPU", "")], ["atomic", "cuda/atomic"]⟩).1 "" (by decide)⟩

/-! ## The includes of each group -/

/-- C10: with `_NVHPC_STDPAR_GPU` undefined the selected group includes
`<atomic>` and nothing else, so the outcome of reading the header is the same
for any two sets of headers that agree on `<atomic>`, and with `<atomic>`
found it is the translation unit with the std declarations, whether or not
`<cuda/atomic>` is found; with the flag defined the selected group includes
`<cuda/atomic>` alone, and a translation unit read from the header has
included no `<atomic>`. -/
theorem host_build_ignores_cuda_header (cfg : BuildConfig) :
    (defined cfg flag = false →
      includesOf (activeGroup cfg) = ["atomic"] ∧
      (∀ hs : List String, ("atomic" ∈ hs ↔ "atomic" ∈ cfg.headers) →
        resolve ⟨cfg.macros, hs⟩ = resolve cfg) ∧
      ("atomic" ∈ cfg.headers →
        resolve cfg = .ok ⟨[path], ["atomic"], declsOf hostGroup⟩)) ∧
    (defined cfg flag = true →
      includesOf (activeGroup cfg) = ["cuda/atomic"] ∧
      ∀ tu, resolve cfg = .ok tu → "atomic" ∉ tu.included) := by
  refine ⟨?_, ?_⟩
  · intro h
    refine ⟨?_, ?_, ?_⟩
    · rw [activeGroup_of_not_defined h]; rfl
    · intro hs hiff
      have h' : defined ⟨cfg.macros, hs⟩ flag = false := h
      rw [resolve_of_not_defined h, resolve_of_not_defined h']
      by_cases hm : "atomic" ∈ cfg.headers
      · rw [if_pos hm, if_pos (hiff.mpr hm)]
      · rw [if_neg hm, if_neg (fun hc => hm (hiff.mp hc))]
    · intro hm
      rw [resolve_of_not_defined h, if_pos hm]
  · intro h
    refine ⟨?_, ?_⟩
    · rw [activeGroup_of_defined h]; rfl
    · intro tu htu
      rw [resolve_of_defined h] at htu
      split at htu
      · cases htu
        decide
      · cases htu

/-- C10 at a host configuration that finds `<atomic>` and not `<cuda/atomic>`,
compared with the same configuration finding both. -/
theorem host_build_ignores_cuda_header_witness :
    defined ⟨[], ["atomic"]⟩ flag = false ∧
    "cuda/atomic" ∉ (["atomic"] : List String) ∧
    resolve ⟨[], ["atomic"]⟩ = .ok ⟨[path], ["atomic"], declsOf hostGroup⟩ ∧
    resolve ⟨[], ["cuda/atomic", "atomic"]⟩ = resolve ⟨[], ["atomic"]⟩ :=
  ⟨by decide, by decide,
   ((host_build_ignores_cuda_header ⟨[], ["atomic"]⟩).1 (by decide)).2.2 (by decide),
   ((host_build_ignores_cuda_header ⟨[], ["atomic"]⟩).1 (by decide)).2.1
      ["cuda/atomic", "atomic"] (by decide)⟩

end AtomicH
